import Mathlib

/-!
Verification development for the DGNN model in `src/model/dgnn.py`.

Tensors are embedded as a shape together with row-major flat data over `ℚ`
(the rational numbers stand in for the framework's floating-point values).
Every TensorFlow operation used by the model is translated as a shape-checked
function returning `Option Tensor`; `none` models the framework raising a
shape error.  Keras layers carrying state (batch normalisation) are embedded
as structures whose `call` returns the output together with the updated layer,
mirroring the in-place variable updates of the framework.
-/

/-- Row-major flat index of multi-index `idx` in a tensor of shape `s`. -/
def flattenIdx : List Nat → List Nat → Nat
  | _ :: ss, i :: is => i * ss.prod + flattenIdx ss is
  | _, _ => 0

/-- Inverse of `flattenIdx`: the multi-index of flat position `i` in shape `s`. -/
def unflattenIdx : List Nat → Nat → List Nat
  | [], _ => []
  | _ :: ss, i => i / ss.prod :: unflattenIdx ss (i % ss.prod)

/-- A tensor: shape plus row-major data, mirroring a `tf.Tensor`. -/
structure Tensor where
  shape : List Nat
  data : List ℚ
deriving DecidableEq, Inhabited

/-- Number of elements a tensor of this shape holds. -/
def Tensor.size (x : Tensor) : Nat := x.shape.prod

/-- Entry of a tensor at a multi-index (0 outside the data). -/
def Tensor.entry (x : Tensor) (idx : List Nat) : ℚ :=
  x.data.getD (flattenIdx x.shape idx) 0

/-- Build a tensor of shape `s` whose entry at `idx` is `f idx`. -/
def mkTensor (s : List Nat) (f : List Nat → ℚ) : Tensor :=
  ⟨s, (List.range s.prod).map (fun i => f (unflattenIdx s i))⟩

/-- Sum of `f 0 + ... + f (n-1)`. -/
def sumTo (n : Nat) (f : Nat → ℚ) : ℚ := ((List.range n).map f).sum

/-- A multi-index is valid for a shape when it is componentwise below it. -/
def ValidIdx (idx s : List Nat) : Prop := List.Forall₂ (· < ·) idx s

/-! ## TensorFlow operations used by the model -/

/-- `tf.transpose` with an explicit permutation `perm`: output axis `i` is input
axis `perm i`, so the entry of the output at `idx` is the entry of the input at
the index whose position `j` is `idx (perm.indexOf j)`. -/
def transposeT (x : Tensor) (perm : List Nat) : Option Tensor :=
  if perm.length == x.shape.length
      && (List.range x.shape.length).all (fun j => perm.contains j) then
    some (mkTensor (perm.map (fun i => x.shape.getD i 0))
      (fun idx => x.entry ((List.range x.shape.length).map
        (fun j => idx.getD (perm.findIdx (fun k => k == j)) 0))))
  else none

/-- `tf.reshape`; a `none` in `spec` plays the role of the `-1` wildcard whose
size is inferred from the element count.  The flat row-major data is reused
unchanged, exactly as `tf.reshape` does. -/
def reshapeSpec (x : Tensor) (spec : List (Option Nat)) : Option Tensor :=
  let known := (spec.filterMap id).prod
  let inferred := x.size / known
  let full := spec.map (fun o => o.getD inferred)
  if (spec.all (fun o => o.isSome) && known == x.size)
      || ((spec.filter (fun o => o.isNone)).length == 1 && known != 0
          && known * inferred == x.size) then
    some ⟨full, x.data⟩
  else none

/-- `tf.einsum('nce,ev->ncv', x, m)`: batched contraction of the last axis of a
rank-3 tensor against the first axis of a rank-2 tensor. -/
def einsumNCE (x m : Tensor) : Option Tensor :=
  match x.shape, m.shape with
  | [n, c, e], [e2, v] =>
    if e == e2 then
      some (mkTensor [n, c, v] (fun idx =>
        sumTo e (fun k =>
          x.entry [idx.getD 0 0, idx.getD 1 0, k] * m.entry [k, idx.getD 2 0])))
    else none
  | _, _ => none

/-- `tf.stack([a, b, c], axis=1)` for rank-3 inputs of equal shape. -/
def stack3Axis1 (a b c : Tensor) : Option Tensor :=
  match a.shape with
  | [n, p, q] =>
    if b.shape == a.shape && c.shape == a.shape then
      some (mkTensor [n, 3, p, q] (fun idx =>
        let rest := [idx.getD 0 0, idx.getD 2 0, idx.getD 3 0]
        if idx.getD 1 0 == 0 then a.entry rest
        else if idx.getD 1 0 == 1 then b.entry rest
        else c.entry rest))
    else none
  | _ => none

/-- `tf.concat([x, y], axis=-1)`: concatenation along the last axis. -/
def concatLast (x y : Tensor) : Option Tensor :=
  let cx := x.shape.getLastD 0
  let cy := y.shape.getLastD 0
  if x.shape.length == y.shape.length && x.shape.length != 0
      && x.shape.dropLast == y.shape.dropLast then
    some (mkTensor (x.shape.dropLast ++ [cx + cy]) (fun idx =>
      let k := idx.getLastD 0
      if k < cx then x.entry (idx.dropLast ++ [k])
      else y.entry (idx.dropLast ++ [k - cx])))
  else none

/-- `tf.keras.layers.GlobalAveragePooling2D`: mean over the two middle axes of
a rank-4 channels-last tensor. -/
def globalAveragePooling2D (x : Tensor) : Option Tensor :=
  match x.shape with
  | [b, h, w, c] =>
    some (mkTensor [b, c] (fun idx =>
      sumTo h (fun i => sumTo w (fun j =>
        x.entry [idx.getD 0 0, i, j, idx.getD 1 0])) / mkRat (Int.ofNat (h * w)) 1))
  | _ => none

/-! ## Keras layers used by the model -/

/-- `tf.keras.layers.Dense`: `y[..., f] = bias f + Σ_c x[..., c] * kernel c f`,
acting on the last axis.  `units` is the constructor argument; the kernel is
built to match it, which the shape guard enforces. -/
structure DenseLayer where
  units : Nat
  kernel : List (List ℚ)
  bias : List ℚ
deriving DecidableEq, Inhabited

def DenseLayer.call (l : DenseLayer) (x : Tensor) : Option Tensor :=
  let inC := x.shape.getLastD 0
  if x.shape.length != 0 && l.kernel.length == inC
      && l.kernel.all (fun row => row.length == l.units)
      && l.bias.length == l.units then
    some (mkTensor (x.shape.dropLast ++ [l.units]) (fun idx =>
      let f := idx.getLastD 0
      l.bias.getD f 0 + sumTo inC (fun c =>
        x.entry (idx.dropLast ++ [c]) * ((l.kernel.getD c []).getD f 0))))
  else none

/-- Keras default momentum of `BatchNormalization`. -/
def bnMomentum : ℚ := 99 / 100

/-- Keras default epsilon of `BatchNormalization`. -/
def bnEpsilon : ℚ := 1 / 1000

/-- Fuel-driven Newton iteration for the integer square root. -/
def natSqrtIter (n : Nat) : Nat → Nat → Nat
  | x, 0 => x
  | x, fuel + 1 =>
    let y := (x + n / x) / 2
    if y < x then natSqrtIter n y fuel else x

/-- Integer square root (floor), by Newton iteration. -/
def natSqrt (n : Nat) : Nat :=
  if n == 0 then 0 else natSqrtIter n n n

/-- Exact rational square root: the square root of `q` when `q` is the square
of a rational, and `0` otherwise (the embedding is evaluated only at perfect
squares, where it agrees with the framework's real square root). -/
def ratSqrt (q : ℚ) : ℚ :=
  let sn := natSqrt q.num.toNat
  let sd := natSqrt q.den
  if ((sn * sn : Nat) : Int) == q.num && sd * sd == q.den then
    mkRat (Int.ofNat sn) sd
  else 0

/-- `tf.keras.layers.BatchNormalization(axis)` state: per-slice scale, offset
and moving statistics along the normalised axis. -/
structure BatchNorm where
  axis : Nat
  gamma : List ℚ
  beta : List ℚ
  movingMean : List ℚ
  movingVar : List ℚ
deriving DecidableEq, Inhabited

/-- Batch-normalisation forward pass.  With `training = true` the batch
statistics along `axis` are used and the moving statistics are updated with
the Keras rule `moving := moving * momentum + batch * (1 - momentum)`; with
`training = false` the stored moving statistics are used and the layer state
is returned unchanged. -/
def BatchNorm.call (l : BatchNorm) (x : Tensor) (training : Bool) :
    Option (Tensor × BatchNorm) :=
  let n := x.shape.getD l.axis 0
  if l.axis < x.shape.length && l.gamma.length == n && l.beta.length == n
      && l.movingMean.length == n && l.movingVar.length == n then
    if training then
      let cnt : ℚ := mkRat (Int.ofNat (x.size / n)) 1
      let slice := fun (j : Nat) (g : ℚ → ℚ) => sumTo x.size (fun i =>
        if (unflattenIdx x.shape i).getD l.axis 0 == j then g (x.data.getD i 0)
        else 0)
      let bmean := fun j => slice j id / cnt
      let bvar := fun j =>
        slice j (fun t => (t - bmean j) * (t - bmean j)) / cnt
      some (mkTensor x.shape (fun idx =>
          let j := idx.getD l.axis 0
          l.gamma.getD j 0 * (x.entry idx - bmean j) /
              ratSqrt (bvar j + bnEpsilon) + l.beta.getD j 0),
        { l with
          movingMean := (List.range n).map (fun j =>
            l.movingMean.getD j 0 * bnMomentum + bmean j * (1 - bnMomentum))
          movingVar := (List.range n).map (fun j =>
            l.movingVar.getD j 0 * bnMomentum + bvar j * (1 - bnMomentum)) })
    else
      some (mkTensor x.shape (fun idx =>
          let j := idx.getD l.axis 0
          l.gamma.getD j 0 * (x.entry idx - l.movingMean.getD j 0) /
              ratSqrt (l.movingVar.getD j 0 + bnEpsilon) + l.beta.getD j 0),
        l)
  else none

/-- Parameter pack out of which a `BatchNorm` layer is built. -/
structure BNParams where
  gamma : List ℚ
  beta : List ℚ
  movingMean : List ℚ
  movingVar : List ℚ
deriving DecidableEq, Inhabited

def BNParams.toLayer (p : BNParams) (axis : Nat) : BatchNorm :=
  ⟨axis, p.gamma, p.beta, p.movingMean, p.movingVar⟩

/-- The activations occurring in the model (`'relu'` is the default used by
every layer of this repository). -/
inductive ActKind
  | relu
  | linear
deriving DecidableEq, Inhabited

def ActKind.apply : ActKind → ℚ → ℚ
  | .relu, q => max q 0
  | .linear, q => q

/-- `tf.keras.layers.Activation`, applied elementwise. -/
def applyActT (a : ActKind) (x : Tensor) : Tensor :=
  ⟨x.shape, x.data.map a.apply⟩

/-- Output length of a SAME-padded strided convolution: `ceil(t / s)`. -/
def convOutT (t s : Nat) : Nat := (t + s - 1) / s

/-- Leading padding of the TensorFlow SAME rule along an axis of length `t`
with kernel size `kh` and stride `s`. -/
def convPadTop (t kh s : Nat) : Nat := ((convOutT t s - 1) * s + kh - t) / 2

/-- One output entry of the `[kh, 1]`-kernel convolution at multi-index
`idx = [b, t0, v, f]`: contributions are collected along the time axis only,
at the fixed node column `v`. -/
def convEntry (kh s : Nat) (kernel : List (List (List ℚ))) (bias : List ℚ)
    (x : Tensor) (t c : Nat) (idx : List Nat) : ℚ :=
  bias.getD (idx.getD 3 0) 0 + sumTo kh (fun dt => sumTo c (fun ch =>
    ((kernel.getD dt []).getD ch []).getD (idx.getD 3 0) 0 *
      (if convPadTop t kh s ≤ idx.getD 1 0 * s + dt
          && idx.getD 1 0 * s + dt - convPadTop t kh s < t then
        x.entry [idx.getD 0 0, idx.getD 1 0 * s + dt - convPadTop t kh s,
          idx.getD 2 0, ch]
      else 0)))

/-- `tf.keras.layers.Conv2D(filters, [kh, 1], [s, 1], padding='same')` on a
channels-last rank-4 input.  The second kernel axis has size 1 and is elided:
`kernel dt c f` stands for the framework's `kernel[dt, 0, c, f]`.  Padding
follows the TensorFlow SAME rule along the first spatial axis; along the
second axis the kernel size and stride are 1, so no padding is needed and
the axis length is preserved. -/
def conv2dSameK1 (filters kh s : Nat) (kernel : List (List (List ℚ)))
    (bias : List ℚ) (x : Tensor) : Option Tensor :=
  match x.shape with
  | [b, t, nv, c] =>
    if s != 0 && kernel.length == kh
        && kernel.all (fun kc => kc.length == c
            && kc.all (fun kf => kf.length == filters))
        && bias.length == filters then
      some (mkTensor [b, convOutT t s, nv, filters]
        (convEntry kh s kernel bias x t c))
    else none
  | _ => none

/-- Configuration and weights of the `Conv2D` layer inside `TemporalConv`. -/
structure Conv2dSame where
  filters : Nat
  kernelSize : Nat
  stride : Nat
  kernel : List (List (List ℚ))
  bias : List ℚ
deriving DecidableEq, Inhabited

def Conv2dSame.call (l : Conv2dSame) (x : Tensor) : Option Tensor :=
  conv2dSameK1 l.filters l.kernelSize l.stride l.kernel l.bias x

/-! ## The model of `src/model/dgnn.py` -/

/-- Lines 6-10: `scale_gradients` as registered by `tf.custom_gradient`: the
forward value is the incidence matrix unchanged, and the attached gradient
function multiplies the incoming gradient elementwise by `incidence_lambda`
(`tf.math.multiply(dy, incidence_lambda)`). -/
def scale_gradients (incidence_matrix : Tensor) (incidence_lambda : ℚ) :
    Tensor × (Tensor → Tensor) :=
  (incidence_matrix,
    fun dy => ⟨dy.shape, dy.data.map (fun q => q * incidence_lambda)⟩)

/-- Lines 20-28: `AdaptiveIncidence` stores the incidence matrix as a
trainable `tf.Variable`. -/
structure AdaptiveIncidence where
  incidence_matrix : Tensor
  trainable : Bool
deriving DecidableEq, Inhabited

def AdaptiveIncidence.init (incidence_matrix : Tensor) : AdaptiveIncidence :=
  ⟨incidence_matrix, true⟩

/-- Line 27-28: the forward value of `AdaptiveIncidence.call` is the first
component of `scale_gradients`. -/
def AdaptiveIncidence.call (l : AdaptiveIncidence) (incidence_lambda : ℚ) :
    Tensor :=
  (scale_gradients l.incidence_matrix incidence_lambda).1

/-- Lines 40-58: the DGN block.  `num_nodes`/`num_edges` mirror lines 44-45. -/
structure DGNBlock where
  num_nodes : Nat
  num_edges : Nat
  source_A : AdaptiveIncidence
  target_A : AdaptiveIncidence
  H_v : DenseLayer
  H_e : DenseLayer
  bn_v : BatchNorm
  bn_e : BatchNorm
  act : ActKind
deriving DecidableEq, Inhabited

/-- The randomly initialised weights that Keras creates for the sublayers of a
`DGNBlock` at build time; they are supplied explicitly here. -/
structure BlockWeights where
  hvKernel : List (List ℚ)
  hvBias : List ℚ
  heKernel : List (List ℚ)
  heBias : List ℚ
  bnv : BNParams
  bne : BNParams
deriving DecidableEq, Inhabited

/-- Lines 41-58: `DGNBlock.__init__`. -/
def DGNBlock.init (filters : Nat) (source_A target_A : Tensor)
    (activation : ActKind) (w : BlockWeights) : DGNBlock :=
  { num_nodes := source_A.shape.getD 0 0
    num_edges := source_A.shape.getD 1 0
    source_A := AdaptiveIncidence.init source_A
    target_A := AdaptiveIncidence.init target_A
    H_v := ⟨filters, w.hvKernel, w.hvBias⟩
    H_e := ⟨filters, w.heKernel, w.heBias⟩
    bn_v := w.bnv.toLayer 3
    bn_e := w.bne.toLayer 3
    act := activation }

/-- Lines 95-96 and 104-105: `tf.einsum('nce,ev->ncv', x, tf.transpose A)`. -/
def aggregateWith (x A : Tensor) : Option Tensor := do
  let At ← transposeT A [1, 0]
  einsumNCE x At

/-- Lines 87-92, per stream: permute with `perm=[0,3,2,1]` and reshape to
`(BatchSize, -1, N)`. -/
def DGNBlock.prep (x : Tensor) (BatchSize N : Nat) : Option Tensor := do
  let x1 ← transposeT x [0, 3, 2, 1]
  reshapeSpec x1 [some BatchSize, none, some N]

/-- Lines 97-102 (and dually 106-111), per stream: stack the stream with its
two aggregates on axis 1, reshape to `(BatchSize, 3C, T, N)`, permute to
`(BatchSize, T, N, 3C)`, apply the dense update, batch norm and activation. -/
def DGNBlock.streamForward (h : DenseLayer) (bn : BatchNorm) (act : ActKind)
    (own agg1 agg2 : Tensor) (BatchSize C T N : Nat) (training : Bool) :
    Option (Tensor × BatchNorm) := do
  let stk ← stack3Axis1 own agg1 agg2
  let inp4 ← reshapeSpec stk [some BatchSize, some (3 * C), some T, some N]
  let inp ← transposeT inp4 [0, 2, 3, 1]
  let dense ← h.call inp
  let (bnOut, bn2) ← bn.call dense training
  some (applyActT act bnOut, bn2)

/-- Lines 79-113: `DGNBlock.call`.  The dimension reads of lines 80-84
(`tf.shape(fv)[k]`) are translated with `getD`; on inputs of rank other
than 4 the transposition of line 87/88 rejects the input, so the overall
result is `none` exactly when the framework raises. -/
def DGNBlock.call (b : DGNBlock) (fv fe : Tensor) (training : Bool)
    (incidence_lambda : ℚ) : Option ((Tensor × Tensor) × DGNBlock) := do
  let BatchSize := fv.shape.getD 0 0
  let T := fv.shape.getD 1 0
  let Nv := fv.shape.getD 2 0
  let Ne := fe.shape.getD 2 0
  let C := fv.shape.getD 3 0
  let fv2 ← DGNBlock.prep fv BatchSize Nv
  let fe2 ← DGNBlock.prep fe BatchSize Ne
  let feAs ← aggregateWith fe2 (b.source_A.call incidence_lambda)
  let feAt ← aggregateWith fe2 (b.target_A.call incidence_lambda)
  let (fv_out, bnv2) ← DGNBlock.streamForward b.H_v b.bn_v b.act fv2 feAs feAt
    BatchSize C T Nv training
  let fvAs ← aggregateWith fv2 (b.source_A.call incidence_lambda)
  let fvAt ← aggregateWith fv2 (b.target_A.call incidence_lambda)
  let (fe_out, bne2) ← DGNBlock.streamForward b.H_e b.bn_e b.act fe2 fvAs fvAt
    BatchSize C T Ne training
  some ((fv_out, fe_out), { b with bn_v := bnv2, bn_e := bne2 })

/-- Lines 115-131: `TemporalConv`. -/
structure TemporalConv where
  conv : Conv2dSame
  bn : BatchNorm
  act : ActKind
deriving DecidableEq, Inhabited

/-- The randomly initialised weights of a `TemporalConv`. -/
structure TCWeights where
  kernel : List (List (List ℚ))
  bias : List ℚ
  bn : BNParams
deriving DecidableEq, Inhabited

/-- Lines 116-123: `TemporalConv.__init__`. -/
def TemporalConv.init (filters kernel_size stride : Nat)
    (activation : ActKind) (w : TCWeights) : TemporalConv :=
  { conv := ⟨filters, kernel_size, stride, w.kernel, w.bias⟩
    bn := w.bn.toLayer 3
    act := activation }

/-- Lines 127-131: `TemporalConv.call`. -/
def TemporalConv.call (l : TemporalConv) (x : Tensor) (training : Bool) :
    Option (Tensor × TemporalConv) := do
  let c ← l.conv.call x
  let (bnOut, bn2) ← l.bn.call c training
  some (applyActT l.act bnOut, { l with bn := bn2 })

/-- Lines 133-144: `GraphTemporalConv`. -/
structure GraphTemporalConv where
  dgnb : DGNBlock
  tc : TemporalConv
deriving DecidableEq, Inhabited

/-- The randomly initialised weights of a `GraphTemporalConv`. -/
structure GTCWeights where
  block : BlockWeights
  tcw : TCWeights
deriving DecidableEq, Inhabited

/-- Lines 134-137: `GraphTemporalConv.__init__` (the `residual` argument is
accepted and ignored by the source, so it is omitted here). -/
def GraphTemporalConv.init (filters : Nat) (source_A target_A : Tensor)
    (kernel_size stride : Nat) (activation : ActKind) (w : GTCWeights) :
    GraphTemporalConv :=
  { dgnb := DGNBlock.init filters source_A target_A activation w.block
    tc := TemporalConv.init filters kernel_size stride activation w.tcw }

/-- Lines 139-144: `GraphTemporalConv.call`.  The same `tc` layer object is
applied to both streams, so its state threads through both applications. -/
def GraphTemporalConv.call (l : GraphTemporalConv) (fv fe : Tensor)
    (training : Bool) (incidence_lambda : ℚ) :
    Option ((Tensor × Tensor) × GraphTemporalConv) := do
  let (p, dgnb2) ← l.dgnb.call fv fe training incidence_lambda
  let (fv2, tc1) ← l.tc.call p.1 training
  let (fe2, tc2) ← tc1.call p.2 training
  some ((fv2, fe2), { dgnb := dgnb2, tc := tc2 })

/-- Lines 146-170: the full `DGNN` model. -/
structure DGNN where
  bn_v : BatchNorm
  bn_e : BatchNorm
  GTC_layers : List GraphTemporalConv
  fc : DenseLayer
  num_classes : Nat
deriving DecidableEq, Inhabited

/-- The randomly initialised weights of a `DGNN`: one pack per
`GraphTemporalConv` layer, the `fc` weights and the two input batch norms. -/
structure DGNNWeights where
  bnv : BNParams
  bne : BNParams
  gtc : Nat → GTCWeights
  fcKernel : List (List ℚ)
  fcBias : List ℚ

/-- Lines 147-170: `DGNN.__init__`.  The module `graph.directed_ntu_rgb_d`
imported on line 1 is not part of this repository's sources, so the two
incidence matrices `source_M`/`target_M` obtained from `Graph()` are taken as
parameters. -/
def DGNN.init (num_classes : Nat) (source_A target_A : Tensor)
    (w : DGNNWeights) : DGNN :=
  { bn_v := w.bnv.toLayer 1
    bn_e := w.bne.toLayer 1
    GTC_layers := [
      GraphTemporalConv.init 64 source_A target_A 9 1 .relu (w.gtc 0),
      GraphTemporalConv.init 64 source_A target_A 9 1 .relu (w.gtc 1),
      GraphTemporalConv.init 64 source_A target_A 9 1 .relu (w.gtc 2),
      GraphTemporalConv.init 64 source_A target_A 9 1 .relu (w.gtc 3),
      GraphTemporalConv.init 128 source_A target_A 9 2 .relu (w.gtc 4),
      GraphTemporalConv.init 128 source_A target_A 9 1 .relu (w.gtc 5),
      GraphTemporalConv.init 128 source_A target_A 9 1 .relu (w.gtc 6),
      GraphTemporalConv.init 256 source_A target_A 9 2 .relu (w.gtc 7),
      GraphTemporalConv.init 256 source_A target_A 9 1 .relu (w.gtc 8),
      GraphTemporalConv.init 256 source_A target_A 9 1 .relu (w.gtc 9)]
    fc := ⟨num_classes, w.fcKernel, w.fcBias⟩
    num_classes := num_classes }

/-- The default `num_classes=60` of `DGNN.__init__` (line 147). -/
def DGNN.initDefault (source_A target_A : Tensor) (w : DGNNWeights) : DGNN :=
  DGNN.init 60 source_A target_A w

/-- Lines 204-205: the `for layer in self.GTC_layers` loop, threading the
(vertex, edge) pair and the updated layer states. -/
def runGTCList : List GraphTemporalConv → Tensor × Tensor → Bool → ℚ →
    Option ((Tensor × Tensor) × List GraphTemporalConv)
  | [], p, _, _ => some (p, [])
  | l :: ls, p, training, lam => do
    let (p1, l2) ← l.call p.1 p.2 training lam
    let (p2, ls2) ← runGTCList ls p1 training lam
    some (p2, l2 :: ls2)

/-- Lines 207-220: the classification head: read `out_channels` from the
vertex stream, unmerge the person axis, pool both streams globally,
concatenate them and apply the final dense layer. -/
def DGNN.head (fc : DenseLayer) (fvL feL : Tensor) (BatchSize M : Nat) :
    Option Tensor := do
  let out_channels := fvL.shape.getD 3 0
  let fvU ← reshapeSpec fvL [some BatchSize, some M, none, some out_channels]
  let feU ← reshapeSpec feL [some BatchSize, some M, none, some out_channels]
  let fvP ← globalAveragePooling2D fvU
  let feP ← globalAveragePooling2D feU
  let cat ← concatLast fvP feP
  fc.call cat

/-- Lines 187-221: `DGNN.call`.  The dimension reads of lines 189-194 are
translated with `getD`; on inputs of rank other than 5 the read dimensions
make the reshape of line 197/198 reject the input, so the overall result is
`none` exactly when the framework raises. -/
def DGNN.call (m : DGNN) (fv fe : Tensor) (training : Bool)
    (incidence_lambda : ℚ) : Option (Tensor × DGNN) := do
  let BatchSize := fv.shape.getD 0 0
  let M := fv.shape.getD 1 0
  let T := fv.shape.getD 2 0
  let Nv := fv.shape.getD 3 0
  let Ne := fe.shape.getD 3 0
  let C := fv.shape.getD 4 0
  let fvR ← reshapeSpec fv [none, some T, some Nv, some C]
  let feR ← reshapeSpec fe [none, some T, some Ne, some C]
  let (fvN, bnv1) ← m.bn_v.call fvR training
  let (feN, bnv2) ← bnv1.call feR training
  let (pL, layers2) ← runGTCList m.GTC_layers (fvN, feN) training incidence_lambda
  let out ← DGNN.head m.fc pL.1 pL.2 BatchSize M
  some (out, { m with bn_v := bnv2, GTC_layers := layers2 })

/-- The default `incidence_lambda=0` of `DGNN.call` (line 187). -/
def DGNN.callDefault (m : DGNN) (fv fe : Tensor) (training : Bool) :
    Option (Tensor × DGNN) :=
  m.call fv fe training 0

/-! ## The DGN block update as the specification words it (claim C1) -/

/-- Modelled from the spec: aggregation of a per-edge (resp. per-vertex)
feature stream through an incidence matrix `A` of shape `(rows, cols)`:
`out[b, t, r, c] = Σ_k A[r, k] * f[b, t, k, c]`.  For the vertex update `A`
is an incidence matrix of shape `(Nv, Ne)` applied to the edge stream; for
the dual edge update the transposed matrix is applied to the vertex
stream. -/
def specAggregate (A f : Tensor) : Option Tensor :=
  match A.shape, f.shape with
  | [rows, cols], [b, t, k, c] =>
    if k == cols then
      some (mkTensor [b, t, rows, c] (fun idx =>
        sumTo cols (fun e =>
          A.entry [idx.getD 2 0, e] *
            f.entry [idx.getD 0 0, idx.getD 1 0, e, idx.getD 3 0])))
    else none
  | _, _ => none

/-- Concatenation of three tensors along the channel (last) axis. -/
def concat3Last (x y z : Tensor) : Option Tensor := do
  let a ← concatLast x y
  concatLast a z

/-- Modelled from the spec: one stream update of the claimed DGN block:
activation of the batch-normalised dense transform applied to the
channel-wise concatenation of the stream's own features with two aggregated
features of the other stream. -/
def DGNBlock.specStream (h : DenseLayer) (bn : BatchNorm) (act : ActKind)
    (own agg1 agg2 : Tensor) (training : Bool) :
    Option (Tensor × BatchNorm) := do
  let inp ← concat3Last own agg1 agg2
  let dense ← h.call inp
  let (bnOut, bn2) ← bn.call dense training
  some (applyActT act bnOut, bn2)

/-- Modelled from the spec: `DGNBlock.call` as claim C1 describes it (used
only to compare against the code).  The
vertex output is `act (bn_v (H_v (fv ++ A_s·fe ++ A_t·fe)))` channel-wise,
and the edge output is, dually, `act (bn_e (H_e (fe ++ A_sᵀ·fv ++ A_tᵀ·fv)))`
channel-wise, the aggregations running through the source and target
incidence matrices. -/
def DGNBlock.specCall (b : DGNBlock) (fv fe : Tensor) (training : Bool)
    (incidence_lambda : ℚ) : Option ((Tensor × Tensor) × DGNBlock) := do
  let feAs ← specAggregate (b.source_A.call incidence_lambda) fe
  let feAt ← specAggregate (b.target_A.call incidence_lambda) fe
  let (fv_out, bnv2) ← DGNBlock.specStream b.H_v b.bn_v b.act fv feAs feAt
    training
  let sT ← transposeT (b.source_A.call incidence_lambda) [1, 0]
  let tT ← transposeT (b.target_A.call incidence_lambda) [1, 0]
  let fvAs ← specAggregate sT fv
  let fvAt ← specAggregate tT fv
  let (fe_out, bne2) ← DGNBlock.specStream b.H_e b.bn_e b.act fe fvAs fvAt
    training
  some ((fv_out, fe_out), { b with bn_v := bnv2, bn_e := bne2 })

/-! ## Concrete instances used to exhibit the behaviour of the model -/

/-- Identity-acting batch-norm parameters: the moving variance is chosen so
that the divisor `sqrt(var + epsilon)` is exactly 1. -/
def bnIdParams : BNParams := ⟨[1], [0], [0], [999 / 1000]⟩

def c1A : Tensor := ⟨[2, 2], [0, 0, 0, 0]⟩

def c1Block : DGNBlock :=
  DGNBlock.init 1 c1A c1A .relu
    ⟨[[1], [0], [0]], [0], [[1], [0], [0]], [0], bnIdParams, bnIdParams⟩

def c1fv : Tensor := ⟨[1, 2, 2, 1], [1, 2, 3, 4]⟩

def c1fe : Tensor := ⟨[1, 2, 2, 1], [5, 5, 5, 5]⟩

def c5Block : DGNBlock :=
  DGNBlock.init 1 ⟨[2, 2], [0, 0, 0, 0]⟩ ⟨[2, 2], [0, 0, 0, 0]⟩ .relu
    ⟨[[1], [0], [0]], [0], [[1], [0], [0]], [0], bnIdParams, bnIdParams⟩

def c5tc : TemporalConv := TemporalConv.init 1 9 1 .relu ⟨[], [], bnIdParams⟩

def c5fv : Tensor := ⟨[1, 1, 2, 1], [1, 2]⟩

def c5fe : Tensor := ⟨[1, 1, 1, 1], [5]⟩

/-- A one-class model with an empty layer stack, used to exhibit a concrete
successful forward pass of `DGNN.call`. -/
def c2M : DGNN :=
  ⟨⟨1, [1], [0], [0], [999 / 1000]⟩, ⟨1, [1], [0], [0], [999 / 1000]⟩, [],
    ⟨1, [[1], [1]], [0]⟩, 1⟩

def c2fv : Tensor := ⟨[1, 1, 1, 1, 1], [3]⟩

def c2fe : Tensor := ⟨[1, 1, 1, 1, 1], [4]⟩

def c2Res : Tensor × DGNN :=
  (DGNN.call c2M c2fv c2fe false 0).getD (⟨[], []⟩, c2M)

def c9M : DGNN :=
  ⟨⟨1, [1], [0], [0], [999 / 1000]⟩, ⟨1, [1], [0], [0], [999 / 1000]⟩, [],
    ⟨1, [[1], [1]], [0]⟩, 1⟩

def c9fv : Tensor := ⟨[1, 1, 1, 1, 1], [3]⟩

def c9fe : Tensor := ⟨[1, 1, 1, 1, 1], [4]⟩

def c9Res : Tensor × DGNN :=
  (DGNN.call c9M c9fv c9fe true 0).getD (⟨[], []⟩, c9M)

def c10M : DGNN :=
  ⟨⟨1, [1], [0], [0], [999 / 1000]⟩, ⟨1, [1], [0], [0], [999 / 1000]⟩, [],
    ⟨1, [[1], [2]], [0]⟩, 1⟩

def c10fv : Tensor := ⟨[1, 1, 1, 1, 1], [3]⟩

def c10fe : Tensor := ⟨[1, 1, 1, 1, 1], [4]⟩

def c10Res : Tensor × DGNN :=
  (DGNN.call c10M c10fv c10fe false 0).getD (⟨[], []⟩, c10M)

def c6A : Tensor := ⟨[2, 2], [0, 0, 0, 0]⟩
def c6K : List (List (List ℚ)) := [[[1]], [[1]]]
def c6gtc : GraphTemporalConv :=
  GraphTemporalConv.init 1 c6A c6A 2 1 .relu
    ⟨⟨[[1], [0], [0]], [0], [[1], [0], [0]], [0], bnIdParams, bnIdParams⟩,
      ⟨c6K, [0], bnIdParams⟩⟩
def c6fv : Tensor := ⟨[1, 2, 2, 1], [1, 2, 3, 4]⟩
def c6fe : Tensor := ⟨[1, 2, 2, 1], [5, 5, 5, 5]⟩
def c6Res : (Tensor × Tensor) × GraphTemporalConv :=
  (GraphTemporalConv.call c6gtc c6fv c6fe false 0).getD
    ((⟨[], []⟩, ⟨[], []⟩), c6gtc)
def c6x1 : Tensor := ⟨[1, 2, 2, 1], [1, 2, 3, 4]⟩
def c6x2 : Tensor := ⟨[1, 2, 2, 1], [1, 9, 3, 9]⟩
def c6y1 : Tensor := (conv2dSameK1 1 2 1 c6K [0] c6x1).getD ⟨[], []⟩
def c6y2 : Tensor := (conv2dSameK1 1 2 1 c6K [0] c6x2).getD ⟨[], []⟩

/-! ## Basic lemmas about the operations -/

theorem flattenIdx_lt {idx s : List Nat} (h : ValidIdx idx s) :
    flattenIdx s idx < s.prod := by
  induction h with
  | nil => simp [flattenIdx]
  | @cons i d is ss hi htl ih =>
    have h1 : flattenIdx (d :: ss) (i :: is) = i * ss.prod + flattenIdx ss is := rfl
    rw [h1, List.prod_cons]
    calc i * ss.prod + flattenIdx ss is < i * ss.prod + ss.prod :=
          Nat.add_lt_add_left ih _
      _ = (i + 1) * ss.prod := by ring
      _ ≤ d * ss.prod := Nat.mul_le_mul_right _ hi

theorem unflattenIdx_flattenIdx {idx s : List Nat} (h : ValidIdx idx s) :
    unflattenIdx s (flattenIdx s idx) = idx := by
  induction h with
  | nil => simp [flattenIdx, unflattenIdx]
  | @cons i d is ss hi htl ih =>
    have hr : flattenIdx ss is < ss.prod := flattenIdx_lt htl
    have hp : 0 < ss.prod := lt_of_le_of_lt (Nat.zero_le _) hr
    have h1 : flattenIdx (d :: ss) (i :: is) = i * ss.prod + flattenIdx ss is := rfl
    have h2 : unflattenIdx (d :: ss) (i * ss.prod + flattenIdx ss is) =
        (i * ss.prod + flattenIdx ss is) / ss.prod ::
          unflattenIdx ss ((i * ss.prod + flattenIdx ss is) % ss.prod) := rfl
    rw [h1, h2]
    have hdiv : (i * ss.prod + flattenIdx ss is) / ss.prod = i := by
      rw [Nat.add_comm, Nat.add_mul_div_right _ _ hp, Nat.div_eq_of_lt hr]
      simp
    have hmod : (i * ss.prod + flattenIdx ss is) % ss.prod = flattenIdx ss is := by
      rw [Nat.add_comm, Nat.add_mul_mod_self_right, Nat.mod_eq_of_lt hr]
    rw [hdiv, hmod, ih]

theorem mkTensor_shape (s : List Nat) (f : List Nat → ℚ) : (mkTensor s f).shape = s := rfl

theorem mkTensor_entry {idx s : List Nat} (f : List Nat → ℚ) (h : ValidIdx idx s) :
    (mkTensor s f).entry idx = f idx := by
  have hlt : flattenIdx s idx < s.prod := flattenIdx_lt h
  unfold mkTensor Tensor.entry
  simp only []
  rw [List.getD_eq_getElem?_getD, List.getElem?_map, List.getElem?_range hlt]
  simp [unflattenIdx_flattenIdx h]

theorem transposeT_some_shape {x : Tensor} {perm : List Nat} {y : Tensor}
    (h : transposeT x perm = some y) :
    y.shape = perm.map (fun i => x.shape.getD i 0) := by
  unfold transposeT at h
  split at h
  · injection h with h
    subst h
    rfl
  · exact absurd h (by simp)

theorem reshapeSpec_some_shape {x : Tensor} {spec : List (Option Nat)}
    {y : Tensor} (h : reshapeSpec x spec = some y) :
    y.shape = spec.map (fun o => o.getD (x.size / (spec.filterMap id).prod))
      ∧ y.data = x.data := by
  simp only [reshapeSpec] at h
  split at h
  · injection h with h
    subst h
    exact ⟨rfl, rfl⟩
  · exact absurd h (by simp)

theorem einsumNCE_some_dims {x m y : Tensor} (h : einsumNCE x m = some y) :
    x.shape.getD 2 0 = m.shape.getD 0 0 := by
  unfold einsumNCE at h
  split at h
  · rename_i n c e e2 v hx hm
    split at h
    · rename_i he
      have he2 : e = e2 := by simpa using he
      simp [hx, hm, he2]
    · exact absurd h (by simp)
  · exact absurd h (by simp)

theorem denseLayer_some_shape {l : DenseLayer} {x y : Tensor}
    (h : l.call x = some y) :
    y.shape = x.shape.dropLast ++ [l.units] := by
  simp only [DenseLayer.call] at h
  split at h
  · injection h with h
    subst h
    rfl
  · exact absurd h (by simp)

theorem batchNorm_some_shape {l : BatchNorm} {x : Tensor} {training : Bool}
    {y : Tensor} {l2 : BatchNorm} (h : l.call x training = some (y, l2)) :
    y.shape = x.shape := by
  simp only [BatchNorm.call] at h
  split at h
  · split at h
    · injection h with h
      injection h with h1 h2
      subst h1
      rfl
    · injection h with h
      injection h with h1 h2
      subst h1
      rfl
  · exact absurd h (by simp)

theorem batchNorm_false_state {l : BatchNorm} {x : Tensor} {y : Tensor}
    {l2 : BatchNorm} (h : l.call x false = some (y, l2)) : l2 = l := by
  simp only [BatchNorm.call] at h
  split at h
  · injection h with h
    injection h with h1 h2
    exact h2.symm
  · exact absurd h (by simp)

theorem globalAveragePooling2D_some_shape {x y : Tensor}
    (h : globalAveragePooling2D x = some y) :
    ∃ b hh w c, x.shape = [b, hh, w, c] ∧ y.shape = [b, c] := by
  unfold globalAveragePooling2D at h
  split at h
  · rename_i b hh w c hx
    injection h with h
    subst h
    exact ⟨b, hh, w, c, hx, rfl⟩
  · exact absurd h (by simp)

theorem concatLast_some_shape {x y z : Tensor} (h : concatLast x y = some z) :
    z.shape = x.shape.dropLast ++ [x.shape.getLastD 0 + y.shape.getLastD 0] := by
  unfold concatLast at h
  split at h
  · injection h with h
    subst h
    rfl
  · exact absurd h (by simp)

theorem applyActT_shape (a : ActKind) (x : Tensor) :
    (applyActT a x).shape = x.shape := rfl

/-! ## Inversion lemmas for the layer calls -/

theorem aggregateWith_inv {x A y : Tensor} (h : aggregateWith x A = some y) :
    ∃ At, transposeT A [1, 0] = some At ∧ einsumNCE x At = some y := by
  rw [aggregateWith] at h
  obtain ⟨At, h1, h2⟩ := Option.bind_eq_some'.mp h
  exact ⟨At, h1, h2⟩

theorem streamForward_inv {h : DenseLayer} {bn : BatchNorm} {act : ActKind}
    {own agg1 agg2 : Tensor} {B C T N : Nat} {training : Bool}
    {r : Tensor × BatchNorm}
    (hc : DGNBlock.streamForward h bn act own agg1 agg2 B C T N training =
      some r) :
    ∃ stk inp4 inp dense q,
      stack3Axis1 own agg1 agg2 = some stk ∧
      reshapeSpec stk [some B, some (3 * C), some T, some N] = some inp4 ∧
      transposeT inp4 [0, 2, 3, 1] = some inp ∧
      h.call inp = some dense ∧
      bn.call dense training = some q ∧
      r = (applyActT act q.1, q.2) := by
  rw [DGNBlock.streamForward] at hc
  obtain ⟨stk, h1, hc⟩ := Option.bind_eq_some'.mp hc
  obtain ⟨inp4, h2, hc⟩ := Option.bind_eq_some'.mp hc
  obtain ⟨inp, h3, hc⟩ := Option.bind_eq_some'.mp hc
  obtain ⟨dense, h4, hc⟩ := Option.bind_eq_some'.mp hc
  obtain ⟨q, h5, hc⟩ := Option.bind_eq_some'.mp hc
  obtain ⟨y, bnn, rfl⟩ : ∃ a b, q = (a, b) := ⟨q.1, q.2, rfl⟩
  injection hc with hc
  exact ⟨stk, inp4, inp, dense, (y, bnn), h1, h2, h3, h4, h5, hc.symm⟩

theorem dgnBlock_call_inv {b : DGNBlock} {fv fe : Tensor} {training : Bool}
    {lam : ℚ} {p : Tensor × Tensor} {b2 : DGNBlock}
    (h : b.call fv fe training lam = some (p, b2)) :
    ∃ fv2 fe2 feAs feAt r1 fvAs fvAt r2,
      DGNBlock.prep fv (fv.shape.getD 0 0) (fv.shape.getD 2 0) = some fv2 ∧
      DGNBlock.prep fe (fv.shape.getD 0 0) (fe.shape.getD 2 0) = some fe2 ∧
      aggregateWith fe2 (b.source_A.call lam) = some feAs ∧
      aggregateWith fe2 (b.target_A.call lam) = some feAt ∧
      DGNBlock.streamForward b.H_v b.bn_v b.act fv2 feAs feAt
        (fv.shape.getD 0 0) (fv.shape.getD 3 0) (fv.shape.getD 1 0)
        (fv.shape.getD 2 0) training = some r1 ∧
      aggregateWith fv2 (b.source_A.call lam) = some fvAs ∧
      aggregateWith fv2 (b.target_A.call lam) = some fvAt ∧
      DGNBlock.streamForward b.H_e b.bn_e b.act fe2 fvAs fvAt
        (fv.shape.getD 0 0) (fv.shape.getD 3 0) (fv.shape.getD 1 0)
        (fe.shape.getD 2 0) training = some r2 ∧
      p = (r1.1, r2.1) ∧ b2 = { b with bn_v := r1.2, bn_e := r2.2 } := by
  rw [DGNBlock.call] at h
  obtain ⟨fv2, h1, h⟩ := Option.bind_eq_some'.mp h
  obtain ⟨fe2, h2, h⟩ := Option.bind_eq_some'.mp h
  obtain ⟨feAs, h3, h⟩ := Option.bind_eq_some'.mp h
  obtain ⟨feAt, h4, h⟩ := Option.bind_eq_some'.mp h
  obtain ⟨r1, h5, h⟩ := Option.bind_eq_some'.mp h
  obtain ⟨o1, s1, rfl⟩ : ∃ a b, r1 = (a, b) := ⟨r1.1, r1.2, rfl⟩
  obtain ⟨fvAs, h6, h⟩ := Option.bind_eq_some'.mp h
  obtain ⟨fvAt, h7, h⟩ := Option.bind_eq_some'.mp h
  obtain ⟨r2, h8, h⟩ := Option.bind_eq_some'.mp h
  obtain ⟨o2, s2, rfl⟩ : ∃ a b, r2 = (a, b) := ⟨r2.1, r2.2, rfl⟩
  injection h with h
  injection h with hp hb
  exact ⟨fv2, fe2, feAs, feAt, (o1, s1), fvAs, fvAt, (o2, s2),
    h1, h2, h3, h4, h5, h6, h7, h8, hp.symm, hb.symm⟩

theorem temporalConv_call_inv {l : TemporalConv} {x : Tensor}
    {training : Bool} {y : Tensor} {l2 : TemporalConv}
    (h : l.call x training = some (y, l2)) :
    ∃ c q, l.conv.call x = some c ∧ l.bn.call c training = some q ∧
      y = applyActT l.act q.1 ∧ l2 = { l with bn := q.2 } := by
  rw [TemporalConv.call] at h
  obtain ⟨c, h1, h⟩ := Option.bind_eq_some'.mp h
  obtain ⟨q, h2, h⟩ := Option.bind_eq_some'.mp h
  obtain ⟨o, s, rfl⟩ : ∃ a b, q = (a, b) := ⟨q.1, q.2, rfl⟩
  injection h with h
  injection h with hy hl
  exact ⟨c, (o, s), h1, h2, hy.symm, hl.symm⟩

theorem gtc_call_inv {l : GraphTemporalConv} {fv fe : Tensor}
    {training : Bool} {lam : ℚ} {p : Tensor × Tensor}
    {l2 : GraphTemporalConv}
    (h : l.call fv fe training lam = some (p, l2)) :
    ∃ q r1 r2,
      l.dgnb.call fv fe training lam = some q ∧
      l.tc.call q.1.1 training = some r1 ∧
      r1.2.call q.1.2 training = some r2 ∧
      p = (r1.1, r2.1) ∧ l2 = ⟨q.2, r2.2⟩ := by
  rw [GraphTemporalConv.call] at h
  obtain ⟨q, h1, h⟩ := Option.bind_eq_some'.mp h
  obtain ⟨qp, qb, rfl⟩ : ∃ a b, q = (a, b) := ⟨q.1, q.2, rfl⟩
  obtain ⟨r1, h2, h⟩ := Option.bind_eq_some'.mp h
  obtain ⟨o1, t1, rfl⟩ : ∃ a b, r1 = (a, b) := ⟨r1.1, r1.2, rfl⟩
  obtain ⟨r2, h3, h⟩ := Option.bind_eq_some'.mp h
  obtain ⟨o2, t2, rfl⟩ : ∃ a b, r2 = (a, b) := ⟨r2.1, r2.2, rfl⟩
  injection h with h
  injection h with hp hl
  exact ⟨(qp, qb), (o1, t1), (o2, t2), h1, h2, h3, hp.symm, hl.symm⟩

theorem runGTCList_cons_inv {l : GraphTemporalConv}
    {ls : List GraphTemporalConv} {p : Tensor × Tensor} {training : Bool}
    {lam : ℚ} {r : (Tensor × Tensor) × List GraphTemporalConv}
    (h : runGTCList (l :: ls) p training lam = some r) :
    ∃ q1 q2, l.call p.1 p.2 training lam = some q1 ∧
      runGTCList ls q1.1 training lam = some q2 ∧
      r = (q2.1, q1.2 :: q2.2) := by
  rw [runGTCList] at h
  obtain ⟨q1, h1, h⟩ := Option.bind_eq_some'.mp h
  obtain ⟨p1, l1, rfl⟩ : ∃ a b, q1 = (a, b) := ⟨q1.1, q1.2, rfl⟩
  obtain ⟨q2, h2, h⟩ := Option.bind_eq_some'.mp h
  obtain ⟨p2, l2, rfl⟩ : ∃ a b, q2 = (a, b) := ⟨q2.1, q2.2, rfl⟩
  injection h with h
  exact ⟨(p1, l1), (p2, l2), h1, h2, h.symm⟩

theorem dgnnHead_inv {fc : DenseLayer} {fvL feL : Tensor} {B M : Nat}
    {out : Tensor} (h : DGNN.head fc fvL feL B M = some out) :
    ∃ fvU feU fvP feP cat,
      reshapeSpec fvL [some B, some M, none, some (fvL.shape.getD 3 0)] =
        some fvU ∧
      reshapeSpec feL [some B, some M, none, some (fvL.shape.getD 3 0)] =
        some feU ∧
      globalAveragePooling2D fvU = some fvP ∧
      globalAveragePooling2D feU = some feP ∧
      concatLast fvP feP = some cat ∧
      fc.call cat = some out := by
  rw [DGNN.head] at h
  obtain ⟨fvU, h1, h⟩ := Option.bind_eq_some'.mp h
  obtain ⟨feU, h2, h⟩ := Option.bind_eq_some'.mp h
  obtain ⟨fvP, h3, h⟩ := Option.bind_eq_some'.mp h
  obtain ⟨feP, h4, h⟩ := Option.bind_eq_some'.mp h
  obtain ⟨cat, h5, h⟩ := Option.bind_eq_some'.mp h
  exact ⟨fvU, feU, fvP, feP, cat, h1, h2, h3, h4, h5, h⟩

theorem dgnn_call_inv {m : DGNN} {fv fe : Tensor} {training : Bool} {lam : ℚ}
    {out : Tensor} {m2 : DGNN} (h : m.call fv fe training lam = some (out, m2)) :
    ∃ fvR feR q1 q2 q3,
      reshapeSpec fv [none, some (fv.shape.getD 2 0), some (fv.shape.getD 3 0),
        some (fv.shape.getD 4 0)] = some fvR ∧
      reshapeSpec fe [none, some (fv.shape.getD 2 0), some (fe.shape.getD 3 0),
        some (fv.shape.getD 4 0)] = some feR ∧
      m.bn_v.call fvR training = some q1 ∧
      q1.2.call feR training = some q2 ∧
      runGTCList m.GTC_layers (q1.1, q2.1) training lam = some q3 ∧
      DGNN.head m.fc q3.1.1 q3.1.2 (fv.shape.getD 0 0) (fv.shape.getD 1 0) =
        some out ∧
      m2 = { m with bn_v := q2.2, GTC_layers := q3.2 } := by
  rw [DGNN.call] at h
  obtain ⟨fvR, h1, h⟩ := Option.bind_eq_some'.mp h
  obtain ⟨feR, h2, h⟩ := Option.bind_eq_some'.mp h
  obtain ⟨q1, h3, h⟩ := Option.bind_eq_some'.mp h
  obtain ⟨a1, s1, rfl⟩ : ∃ a b, q1 = (a, b) := ⟨q1.1, q1.2, rfl⟩
  obtain ⟨q2, h4, h⟩ := Option.bind_eq_some'.mp h
  obtain ⟨a2, s2, rfl⟩ : ∃ a b, q2 = (a, b) := ⟨q2.1, q2.2, rfl⟩
  obtain ⟨q3, h5, h⟩ := Option.bind_eq_some'.mp h
  obtain ⟨a3, s3, rfl⟩ : ∃ a b, q3 = (a, b) := ⟨q3.1, q3.2, rfl⟩
  obtain ⟨o, h6, h⟩ := Option.bind_eq_some'.mp h
  injection h with h
  injection h with ho hm
  exact ⟨fvR, feR, (a1, s1), (a2, s2), (a3, s3), h1, h2, h3, h4, h5,
    ho ▸ h6, hm.symm⟩

/-! ## State preservation in inference mode -/

theorem streamForward_false_state {h : DenseLayer} {bn : BatchNorm}
    {act : ActKind} {own agg1 agg2 : Tensor} {B C T N : Nat}
    {r : Tensor × BatchNorm}
    (hc : DGNBlock.streamForward h bn act own agg1 agg2 B C T N false =
      some r) : r.2 = bn := by
  obtain ⟨stk, inp4, inp, dense, q, _, _, _, _, h5, hr⟩ := streamForward_inv hc
  obtain ⟨y, s, rfl⟩ : ∃ a b, q = (a, b) := ⟨q.1, q.2, rfl⟩
  rw [hr]
  exact batchNorm_false_state h5

theorem dgnBlock_false_state {b : DGNBlock} {fv fe : Tensor} {lam : ℚ}
    {p : Tensor × Tensor} {b2 : DGNBlock}
    (h : b.call fv fe false lam = some (p, b2)) : b2 = b := by
  obtain ⟨fv2, fe2, feAs, feAt, r1, fvAs, fvAt, r2,
    _, _, _, _, h5, _, _, h8, _, hb⟩ := dgnBlock_call_inv h
  rw [hb, streamForward_false_state h5, streamForward_false_state h8]

theorem temporalConv_false_state {l : TemporalConv} {x : Tensor} {y : Tensor}
    {l2 : TemporalConv} (h : l.call x false = some (y, l2)) : l2 = l := by
  obtain ⟨c, q, _, h2, _, hl⟩ := temporalConv_call_inv h
  obtain ⟨o, s, rfl⟩ : ∃ a b, q = (a, b) := ⟨q.1, q.2, rfl⟩
  rw [hl]
  have hs : s = l.bn := batchNorm_false_state h2
  rw [hs]

theorem gtc_false_state {l : GraphTemporalConv} {fv fe : Tensor} {lam : ℚ}
    {p : Tensor × Tensor} {l2 : GraphTemporalConv}
    (h : l.call fv fe false lam = some (p, l2)) : l2 = l := by
  obtain ⟨q, r1, r2, h1, h2, h3, _, hl⟩ := gtc_call_inv h
  obtain ⟨a0, s0, rfl⟩ : ∃ a b, q = (a, b) := ⟨q.1, q.2, rfl⟩
  obtain ⟨a1, s1, rfl⟩ : ∃ a b, r1 = (a, b) := ⟨r1.1, r1.2, rfl⟩
  obtain ⟨a2, s2, rfl⟩ : ∃ a b, r2 = (a, b) := ⟨r2.1, r2.2, rfl⟩
  have hq : s0 = l.dgnb := dgnBlock_false_state h1
  have hr1 : s1 = l.tc := temporalConv_false_state h2
  have hr2 : s2 = s1 := temporalConv_false_state h3
  rw [hl]
  simp [hq, hr1, hr2]

theorem runGTCList_false_state {ls : List GraphTemporalConv}
    {p : Tensor × Tensor} {lam : ℚ}
    {r : (Tensor × Tensor) × List GraphTemporalConv}
    (h : runGTCList ls p false lam = some r) : r.2 = ls := by
  induction ls generalizing p r with
  | nil =>
    rw [runGTCList] at h
    injection h with h
    rw [← h]
  | cons l ls ih =>
    obtain ⟨q1, q2, h1, h2, hr⟩ := runGTCList_cons_inv h
    obtain ⟨a1, s1, rfl⟩ : ∃ a b, q1 = (a, b) := ⟨q1.1, q1.2, rfl⟩
    have hq1 : s1 = l := gtc_false_state h1
    rw [hr]
    simp [hq1, ih h2]

theorem dgnn_false_state {m : DGNN} {fv fe : Tensor} {lam : ℚ}
    {out : Tensor} {m2 : DGNN} (h : m.call fv fe false lam = some (out, m2)) :
    m2 = m := by
  obtain ⟨fvR, feR, q1, q2, q3, _, _, h3, h4, h5, _, hm⟩ := dgnn_call_inv h
  obtain ⟨a1, s1, rfl⟩ : ∃ a b, q1 = (a, b) := ⟨q1.1, q1.2, rfl⟩
  obtain ⟨a2, s2, rfl⟩ : ∃ a b, q2 = (a, b) := ⟨q2.1, q2.2, rfl⟩
  have hq1 : s1 = m.bn_v := batchNorm_false_state h3
  have hq2 : s2 = s1 := batchNorm_false_state h4
  have hq3 : q3.2 = m.GTC_layers := runGTCList_false_state h5
  rw [hm, hq2, hq1, hq3]

/-! ## Forward independence of the gradient-scaling factor -/

theorem adaptiveIncidence_call_eq (l : AdaptiveIncidence) (lam : ℚ) :
    l.call lam = l.incidence_matrix := rfl

theorem dgnBlock_call_lambda (b : DGNBlock) (fv fe : Tensor) (training : Bool)
    (lam : ℚ) : b.call fv fe training lam = b.call fv fe training 0 := by
  simp only [DGNBlock.call, adaptiveIncidence_call_eq]

theorem gtc_call_lambda (l : GraphTemporalConv) (fv fe : Tensor)
    (training : Bool) (lam : ℚ) :
    l.call fv fe training lam = l.call fv fe training 0 := by
  simp only [GraphTemporalConv.call, dgnBlock_call_lambda]

theorem runGTCList_lambda (ls : List GraphTemporalConv) (p : Tensor × Tensor)
    (training : Bool) (lam : ℚ) :
    runGTCList ls p training lam = runGTCList ls p training 0 := by
  induction ls generalizing p with
  | nil => rfl
  | cons l ls ih =>
    rw [runGTCList, runGTCList, gtc_call_lambda]
    apply congrArg
    funext q
    obtain ⟨p1, l2⟩ := q
    simp only [ih]

theorem dgnn_call_lambda (m : DGNN) (fv fe : Tensor) (training : Bool)
    (lam : ℚ) : m.call fv fe training lam = m.call fv fe training 0 := by
  simp only [DGNN.call, runGTCList_lambda]

/-! ## Claim theorems -/

theorem map_mul_zero_eq_replicate (l : List ℚ) :
    l.map (fun q => q * 0) = List.replicate l.length 0 := by
  induction l with
  | nil => rfl
  | cons a l ih => simp [ih, List.replicate]

/-- C3: every `DGNBlock` stores its two incidence matrices in two separate
`AdaptiveIncidence` layers, each holding the matrix as a trainable variable,
and the source-directed / target-directed aggregations of the forward pass are
computed from the source matrix and from the target matrix respectively. -/
theorem C3_incidence_variables (filters : Nat) (sA tA : Tensor)
    (activation : ActKind) (w : BlockWeights) (lam : ℚ) (x : Tensor) :
    (DGNBlock.init filters sA tA activation w).source_A =
      AdaptiveIncidence.init sA ∧
    (DGNBlock.init filters sA tA activation w).target_A =
      AdaptiveIncidence.init tA ∧
    (DGNBlock.init filters sA tA activation w).source_A.incidence_matrix = sA ∧
    (DGNBlock.init filters sA tA activation w).source_A.trainable = true ∧
    (DGNBlock.init filters sA tA activation w).target_A.incidence_matrix = tA ∧
    (DGNBlock.init filters sA tA activation w).target_A.trainable = true ∧
    (DGNBlock.init filters sA tA activation w).source_A.call lam = sA ∧
    (DGNBlock.init filters sA tA activation w).target_A.call lam = tA ∧
    aggregateWith x ((DGNBlock.init filters sA tA activation w).source_A.call
      lam) = aggregateWith x sA ∧
    aggregateWith x ((DGNBlock.init filters sA tA activation w).target_A.call
      lam) = aggregateWith x tA :=
  ⟨rfl, rfl, rfl, rfl, rfl, rfl, rfl, rfl, rfl, rfl⟩

/-- C4: `scale_gradients` is the identity in the forward direction and its
registered gradient multiplies the incoming gradient elementwise by
`incidence_lambda`; with factor 0 the gradient reaching the incidence matrix
is the zero tensor (learning disabled), with factor 1 it passes through
unchanged, and in general it is scaled proportionally. -/
theorem C4_scale_gradients (A : Tensor) (lam : ℚ) (dy : Tensor) :
    (scale_gradients A lam).1 = A ∧
    (scale_gradients A lam).2 dy =
      ⟨dy.shape, dy.data.map (fun q => q * lam)⟩ ∧
    (scale_gradients A 0).2 dy =
      ⟨dy.shape, List.replicate dy.data.length 0⟩ ∧
    (scale_gradients A 1).2 dy = dy ∧
    AdaptiveIncidence.call ⟨A, true⟩ lam = A := by
  refine ⟨rfl, rfl, ?_, ?_, rfl⟩
  · show Tensor.mk dy.shape (dy.data.map (fun q => q * 0)) = _
    rw [map_mul_zero_eq_replicate]
  · show Tensor.mk dy.shape (dy.data.map (fun q => q * 1)) = dy
    simp

/-- C7: the model built by `DGNN.__init__` stacks exactly ten
`GraphTemporalConv` layers with filter widths 64,64,64,64,128,128,128,256,
256,256, temporal stride 2 at the fifth and eighth layer (stride 1
elsewhere), kernel size 9 everywhere, and `DGNN.call` runs them in sequence,
each layer consuming the previous layer's vertex and edge outputs. -/
theorem C7_architecture (num_classes : Nat) (sA tA : Tensor)
    (w : DGNNWeights) :
    (DGNN.init num_classes sA tA w).GTC_layers.length = 10 ∧
    (DGNN.init num_classes sA tA w).GTC_layers.map
        (fun l => l.dgnb.H_v.units) =
      [64, 64, 64, 64, 128, 128, 128, 256, 256, 256] ∧
    (DGNN.init num_classes sA tA w).GTC_layers.map
        (fun l => l.dgnb.H_e.units) =
      [64, 64, 64, 64, 128, 128, 128, 256, 256, 256] ∧
    (DGNN.init num_classes sA tA w).GTC_layers.map
        (fun l => l.tc.conv.filters) =
      [64, 64, 64, 64, 128, 128, 128, 256, 256, 256] ∧
    (DGNN.init num_classes sA tA w).GTC_layers.map
        (fun l => l.tc.conv.stride) =
      [1, 1, 1, 1, 2, 1, 1, 2, 1, 1] ∧
    (DGNN.init num_classes sA tA w).GTC_layers.map
        (fun l => l.tc.conv.kernelSize) =
      [9, 9, 9, 9, 9, 9, 9, 9, 9, 9] ∧
    (∀ (l : GraphTemporalConv) (ls : List GraphTemporalConv)
        (p : Tensor × Tensor) (training : Bool) (lam : ℚ),
      runGTCList (l :: ls) p training lam = do
        let (p1, l2) ← l.call p.1 p.2 training lam
        let (p2, ls2) ← runGTCList ls p1 training lam
        some (p2, l2 :: ls2)) :=
  ⟨rfl, rfl, rfl, rfl, rfl, rfl, fun _ _ _ _ _ => rfl⟩

/-- C8: the forward value of `DGNBlock.call` and of `DGNN.call` does not
depend on `incidence_lambda` (whose default in `DGNN.call` is 0): the
`AdaptiveIncidence` forward pass returns the stored matrix unchanged, so the
factor influences only the gradients. -/
theorem C8_forward_lambda_independent (b : DGNBlock) (m : DGNN)
    (fv fe fv5 fe5 : Tensor) (training : Bool) (lam1 lam2 : ℚ) :
    b.call fv fe training lam1 = b.call fv fe training lam2 ∧
    m.call fv5 fe5 training lam1 = m.call fv5 fe5 training lam2 ∧
    m.callDefault fv5 fe5 training = m.call fv5 fe5 training 0 :=
  ⟨(dgnBlock_call_lambda b fv fe training lam1).trans
      (dgnBlock_call_lambda b fv fe training lam2).symm,
    (dgnn_call_lambda m fv5 fe5 training lam1).trans
      (dgnn_call_lambda m fv5 fe5 training lam2).symm,
    rfl⟩

theorem prep_some_shape {x : Tensor} {B N : Nat} {y : Tensor}
    (h : DGNBlock.prep x B N = some y) : ∃ mid, y.shape = [B, mid, N] := by
  rw [DGNBlock.prep] at h
  obtain ⟨x1, h1, h2⟩ := Option.bind_eq_some'.mp h
  refine ⟨x1.size / (([some B, none, some N].filterMap id).prod), ?_⟩
  have := (reshapeSpec_some_shape h2).1
  simpa using this

/-- C5: the DGN block (and with it every graph-temporal layer) is only
well-defined when the number of edges equals the number of vertices: on any
pair of rank-4 inputs whose vertex and edge counts differ, `DGNBlock.call`
and `GraphTemporalConv.call` reject the input (return `none`) instead of
producing a result, because the edge-update einsums contract the vertex axis
of the vertex stream against the edge-indexed axis of the transposed
incidence matrices. -/
theorem C5_requires_equal_counts {b : DGNBlock} {fv fe : Tensor}
    {training : Bool} {lam : ℚ} {B T Nv C Ne : Nat}
    (hfv : fv.shape = [B, T, Nv, C]) (hfe : fe.shape = [B, T, Ne, C])
    (hne : Ne ≠ Nv) :
    b.call fv fe training lam = none ∧
    ∀ tc : TemporalConv,
      GraphTemporalConv.call ⟨b, tc⟩ fv fe training lam = none := by
  have hmain : b.call fv fe training lam = none := by
    cases hc : b.call fv fe training lam with
    | none => rfl
    | some r =>
      exfalso
      obtain ⟨p2, b2, rfl⟩ : ∃ a c, r = (a, c) := ⟨r.1, r.2, rfl⟩
      obtain ⟨fv2, fe2, feAs, feAt, r1, fvAs, fvAt, r2,
        h1, h2, h3, h4, h5, h6, h7, h8, hp, hb⟩ := dgnBlock_call_inv hc
      obtain ⟨mv, hfv2⟩ := prep_some_shape h1
      obtain ⟨me, hfe2⟩ := prep_some_shape h2
      obtain ⟨At, ht, heq⟩ := aggregateWith_inv h3
      have hAt := transposeT_some_shape ht
      have hd1 := einsumNCE_some_dims heq
      obtain ⟨At2, ht2, heq2⟩ := aggregateWith_inv h6
      have hAt2 := transposeT_some_shape ht2
      have hd2 := einsumNCE_some_dims heq2
      rw [hfe2, hAt] at hd1
      rw [hfv2, hAt2] at hd2
      simp only [hfe] at hd1
      simp only [hfv] at hd2
      simp at hd1 hd2
      exact hne (hd1.trans hd2.symm)
  refine ⟨hmain, fun tc => ?_⟩
  cases hg : GraphTemporalConv.call ⟨b, tc⟩ fv fe training lam with
  | none => rfl
  | some r =>
    exfalso
    obtain ⟨p2, l2, rfl⟩ : ∃ a c, r = (a, c) := ⟨r.1, r.2, rfl⟩
    obtain ⟨q, r1, r2, h1, _, _, _, _⟩ := gtc_call_inv hg
    obtain ⟨a0, s0, rfl⟩ : ∃ a c, q = (a, c) := ⟨q.1, q.2, rfl⟩
    rw [show (GraphTemporalConv.mk b tc).dgnb = b from rfl, hmain] at h1
    exact Option.noConfusion h1

theorem C5_witness :
    c5fv.shape = [1, 1, 2, 1] ∧ c5fe.shape = [1, 1, 1, 1] ∧ (1 : Nat) ≠ 2 ∧
    DGNBlock.call c5Block c5fv c5fe false 0 = none ∧
    GraphTemporalConv.call ⟨c5Block, c5tc⟩ c5fv c5fe false 0 = none := by
  have h := @C5_requires_equal_counts c5Block c5fv c5fe false 0 1 1 2 1 1
    rfl rfl (by decide)
  exact ⟨rfl, rfl, by decide, h.1, h.2 c5tc⟩

/-- C9: in `DGNN.call` both input streams pass through the batch-norm layer
`bn_v` (line 202 applies `self.bn_v` to the edge stream as well); in training
mode the updated model's `bn_v` is the result of the two chained updates,
first on the vertex data and then on the edge data, while `bn_e` is returned
untouched. -/
theorem C9_bn_usage {m : DGNN} {fv fe : Tensor} {lam : ℚ}
    {out : Tensor} {m2 : DGNN} (h : m.call fv fe true lam = some (out, m2)) :
    m2.bn_e = m.bn_e ∧
    ∃ fvR feR q1 q2 q3,
      reshapeSpec fv [none, some (fv.shape.getD 2 0), some (fv.shape.getD 3 0),
        some (fv.shape.getD 4 0)] = some fvR ∧
      reshapeSpec fe [none, some (fv.shape.getD 2 0), some (fe.shape.getD 3 0),
        some (fv.shape.getD 4 0)] = some feR ∧
      m.bn_v.call fvR true = some q1 ∧
      q1.2.call feR true = some q2 ∧
      m2.bn_v = q2.2 ∧
      runGTCList m.GTC_layers (q1.1, q2.1) true lam = some q3 ∧
      m2.GTC_layers = q3.2 := by
  obtain ⟨fvR, feR, q1, q2, q3, h1, h2, h3, h4, h5, h6, hm⟩ := dgnn_call_inv h
  subst hm
  exact ⟨rfl, fvR, feR, q1, q2, q3, h1, h2, h3, h4, rfl, h5, rfl⟩

attribute [local semireducible] Rat.add Rat.sub Rat.mul Rat.inv in
theorem C9_witness :
    DGNN.call c9M c9fv c9fe true 0 = some (c9Res.1, c9Res.2) ∧
    c9Res.2.bn_e = c9M.bn_e ∧ c9Res.2.bn_v ≠ c9M.bn_v :=
  ⟨by decide,
    (@C9_bn_usage c9M c9fv c9fe 0 c9Res.1 c9Res.2 (by decide)).1,
    by decide⟩

/-- C10: with `training = false` a `DGNN.call` is pure: the returned model
state is the input model state unchanged (in particular all batch-norm moving
statistics and the trainable incidence matrices), and a second call on the
returned state with the same inputs returns the same output. -/
theorem C10_inference_pure {m : DGNN} {fv fe : Tensor} {lam : ℚ}
    {out : Tensor} {m2 : DGNN} (h : m.call fv fe false lam = some (out, m2)) :
    m2 = m ∧ m2.call fv fe false lam = some (out, m2) := by
  have hm := dgnn_false_state h
  subst hm
  exact ⟨rfl, h⟩

attribute [local semireducible] Rat.add Rat.sub Rat.mul Rat.inv in
theorem C10_witness :
    DGNN.call c10M c10fv c10fe false 0 = some (c10Res.1, c10Res.2) ∧
    c10Res.2 = c10M :=
  ⟨by decide,
    (@C10_inference_pure c10M c10fv c10fe 0 c10Res.1 c10Res.2 (by decide)).1⟩

/-- C2: whenever `DGNN.call` returns on a vertex input of shape
`[B, M, T, Nv, C]` and an edge input of shape `[B, M, T, Ne, C]`, the result
is a single tensor of per-class scores of shape `[B, num_classes]`, computed
by the final dense layer applied to the concatenation of the globally
average-pooled vertex features with the globally average-pooled edge
features produced by the layer stack. -/
theorem C2_classifier {m : DGNN} {fv fe : Tensor} {training : Bool} {lam : ℚ}
    {out : Tensor} {m2 : DGNN} {B M T Nv Ne C : Nat}
    (hfv : fv.shape = [B, M, T, Nv, C]) (hfe : fe.shape = [B, M, T, Ne, C])
    (hfc : m.fc.units = m.num_classes)
    (h : m.call fv fe training lam = some (out, m2)) :
    out.shape = [B, m.num_classes] ∧
    ∃ fvR feR q1 q2 q3 fvU feU fvP feP cat,
      reshapeSpec fv [none, some T, some Nv, some C] = some fvR ∧
      reshapeSpec fe [none, some T, some Ne, some C] = some feR ∧
      m.bn_v.call fvR training = some q1 ∧
      q1.2.call feR training = some q2 ∧
      runGTCList m.GTC_layers (q1.1, q2.1) training lam = some q3 ∧
      reshapeSpec q3.1.1
        [some B, some M, none, some (q3.1.1.shape.getD 3 0)] = some fvU ∧
      reshapeSpec q3.1.2
        [some B, some M, none, some (q3.1.1.shape.getD 3 0)] = some feU ∧
      globalAveragePooling2D fvU = some fvP ∧
      globalAveragePooling2D feU = some feP ∧
      concatLast fvP feP = some cat ∧
      m.fc.call cat = some out := by
  obtain ⟨fvR, feR, q1, q2, q3, h1, h2, h3, h4, h5, h6, hm⟩ := dgnn_call_inv h
  simp only [hfv, hfe, List.getD_cons_zero, List.getD_cons_succ] at h1 h2 h6
  obtain ⟨fvU, feU, fvP, feP, cat, g1, g2, g3, g4, g5, g6⟩ := dgnnHead_inv h6
  have hshape : out.shape = [B, m.num_classes] := by
    have hU := (reshapeSpec_some_shape g1).1
    have hV := (reshapeSpec_some_shape g2).1
    simp only [List.map_cons, List.map_nil, Option.getD_some, Option.getD_none]
      at hU hV
    obtain ⟨b1, hh1, w1, c1, hx1, hy1⟩ := globalAveragePooling2D_some_shape g3
    obtain ⟨b2, hh2, w2, c2, hx2, hy2⟩ := globalAveragePooling2D_some_shape g4
    rw [hU] at hx1
    rw [hV] at hx2
    injection hx1 with e1 hx1
    injection hx1 with e2 hx1
    injection hx1 with e3 hx1
    injection hx1 with e4 hx1
    injection hx2 with f1 hx2
    injection hx2 with f2 hx2
    injection hx2 with f3 hx2
    injection hx2 with f4 hx2
    have hcat := concatLast_some_shape g5
    rw [hy1, hy2] at hcat
    have hout := denseLayer_some_shape g6
    rw [hcat] at hout
    rw [hout, hfc]
    simp [← e1, ← e4, ← f1]
  exact ⟨hshape, fvR, feR, q1, q2, q3, fvU, feU, fvP, feP, cat,
    h1, h2, h3, h4, h5, g1, g2, g3, g4, g5, g6⟩

attribute [local semireducible] Rat.add Rat.sub Rat.mul Rat.inv in
theorem C2_witness :
    DGNN.call c2M c2fv c2fe false 0 = some (c2Res.1, c2Res.2) ∧
    c2Res.1.shape = [1, c2M.num_classes] ∧ c2M.num_classes = 1 :=
  ⟨by decide,
    (@C2_classifier c2M c2fv c2fe false 0 c2Res.1 c2Res.2 1 1 1 1 1 1
      rfl rfl rfl (by decide)).1,
    rfl⟩

theorem sumTo_congr {n : Nat} {f g : Nat → ℚ} (h : ∀ i, i < n → f i = g i) :
    sumTo n f = sumTo n g := by
  unfold sumTo
  congr 1
  apply List.map_congr_left
  intro a ha
  exact h a (List.mem_range.mp ha)

theorem conv2dSameK1_inv {filters kh s : Nat} {kernel : List (List (List ℚ))}
    {bias : List ℚ} {x y : Tensor}
    (h : conv2dSameK1 filters kh s kernel bias x = some y) :
    ∃ b t nv c, x.shape = [b, t, nv, c] ∧
      y = mkTensor [b, convOutT t s, nv, filters]
        (convEntry kh s kernel bias x t c) := by
  unfold conv2dSameK1 at h
  split at h
  · rename_i b t nv c hx
    split at h
    · injection h with h
      exact ⟨b, t, nv, c, hx, h.symm⟩
    · exact absurd h (by simp)
  · exact absurd h (by simp)

theorem conv2dSameK1_column_local {filters kh s : Nat}
    {kernel : List (List (List ℚ))} {bias : List ℚ} {x1 x2 y1 y2 : Tensor}
    {B T N C : Nat}
    (hx1 : x1.shape = [B, T, N, C]) (hx2 : x2.shape = [B, T, N, C])
    (h1 : conv2dSameK1 filters kh s kernel bias x1 = some y1)
    (h2 : conv2dSameK1 filters kh s kernel bias x2 = some y2)
    {v : Nat} (hv : v < N)
    (hagree : ∀ b, b < B → ∀ τ, τ < T → ∀ ch, ch < C →
      x1.entry [b, τ, v, ch] = x2.entry [b, τ, v, ch]) :
    ∀ b, b < B → ∀ t0, t0 < convOutT T s → ∀ f0, f0 < filters →
      y1.entry [b, t0, v, f0] = y2.entry [b, t0, v, f0] := by
  intro b hb t0 ht f0 hf
  obtain ⟨b1, t1, n1, c1, hs1, hy1⟩ := conv2dSameK1_inv h1
  obtain ⟨b2, t2, n2, c2, hs2, hy2⟩ := conv2dSameK1_inv h2
  rw [hx1] at hs1
  rw [hx2] at hs2
  injection hs1 with e1 hs1
  injection hs1 with e2 hs1
  injection hs1 with e3 hs1
  injection hs1 with e4 hs1
  injection hs2 with f1 hs2
  injection hs2 with f2 hs2
  injection hs2 with f3 hs2
  injection hs2 with f4 hs2
  subst e1 e2 e3 e4 f1 f2 f3 f4
  subst hy1 hy2
  have hvalid : ValidIdx [b, t0, v, f0] [B, convOutT T s, N, filters] :=
    List.Forall₂.cons hb (List.Forall₂.cons ht (List.Forall₂.cons hv
      (List.Forall₂.cons hf List.Forall₂.nil)))
  rw [mkTensor_entry _ hvalid, mkTensor_entry _ hvalid]
  unfold convEntry
  congr 1
  apply sumTo_congr
  intro dt hdt
  apply sumTo_congr
  intro ch hch
  congr 1
  split
  · rename_i hcond
    simp only [Bool.and_eq_true, decide_eq_true_eq] at hcond
    have hτ : t0 * s + dt - convPadTop T kh s < T := hcond.2
    simp only [List.getD]
    exact hagree b hb _ hτ ch hch
  · rfl

/-- C6: `GraphTemporalConv.call` first applies the DGN block to the vertex
and edge streams and then applies the temporal convolution to each resulting
stream; the temporal convolution is the `[kernel_size, 1]`-kernel,
`[stride, 1]`-stride, SAME-padded 2-D convolution followed by batch
normalisation and the activation, so it preserves the size of the node/edge
axis (`ceil` division only along time) and each output column depends only
on the same input column. -/
theorem C6_graph_then_temporal :
    (∀ (l : GraphTemporalConv) (fv fe : Tensor) (training : Bool) (lam : ℚ),
      l.call fv fe training lam = do
        let (p, dgnb2) ← l.dgnb.call fv fe training lam
        let (a, tc1) ← l.tc.call p.1 training
        let (b, tc2) ← tc1.call p.2 training
        some ((a, b), ⟨dgnb2, tc2⟩)) ∧
    (∀ (l : TemporalConv) (x : Tensor) (training : Bool),
      l.call x training = do
        let c ← l.conv.call x
        let (bnOut, bn2) ← l.bn.call c training
        some (applyActT l.act bnOut, { l with bn := bn2 })) ∧
    (∀ (f ks s : Nat) (a : ActKind) (w : TCWeights),
      (TemporalConv.init f ks s a w).conv = ⟨f, ks, s, w.kernel, w.bias⟩) ∧
    (∀ (filters kh s : Nat) (kernel : List (List (List ℚ))) (bias : List ℚ)
        (x y : Tensor) (B T N C0 : Nat), x.shape = [B, T, N, C0] →
      conv2dSameK1 filters kh s kernel bias x = some y →
      y.shape = [B, (T + s - 1) / s, N, filters]) ∧
    (∀ (filters kh s : Nat) (kernel : List (List (List ℚ))) (bias : List ℚ)
        (x1 x2 y1 y2 : Tensor) (B T N C : Nat),
      x1.shape = [B, T, N, C] → x2.shape = [B, T, N, C] →
      conv2dSameK1 filters kh s kernel bias x1 = some y1 →
      conv2dSameK1 filters kh s kernel bias x2 = some y2 →
      ∀ v, v < N →
      (∀ b, b < B → ∀ τ, τ < T → ∀ ch, ch < C →
        x1.entry [b, τ, v, ch] = x2.entry [b, τ, v, ch]) →
      ∀ b, b < B → ∀ t0, t0 < convOutT T s → ∀ f0, f0 < filters →
        y1.entry [b, t0, v, f0] = y2.entry [b, t0, v, f0]) := by
  refine ⟨fun l fv fe training lam => rfl, fun l x training => rfl,
    fun f ks s a w => rfl, ?_, ?_⟩
  · intro filters kh s kernel bias x y B T N C0 hx h
    obtain ⟨b, t, nv, c, hs, hy⟩ := conv2dSameK1_inv h
    rw [hx] at hs
    injection hs with e1 hs
    injection hs with e2 hs
    injection hs with e3 hs
    injection hs with e4 hs
    subst e1 e2 e3 e4
    rw [hy]
    rfl
  · intro filters kh s kernel bias x1 x2 y1 y2 B T N C hx1 hx2 h1 h2 v hv
      hagree
    exact conv2dSameK1_column_local hx1 hx2 h1 h2 hv hagree

attribute [local semireducible] Rat.add Rat.sub Rat.mul Rat.inv in
theorem C6_witness :
    GraphTemporalConv.call c6gtc c6fv c6fe false 0 =
      some (c6Res.1, c6Res.2) ∧
    c6y1.shape = [1, (2 + 1 - 1) / 1, 2, 1] ∧
    c6y1.entry [0, 1, 0, 0] = c6y2.entry [0, 1, 0, 0] :=
  ⟨by decide,
    C6_graph_then_temporal.2.2.2.1 1 2 1 c6K [0] c6x1 c6y1 1 2 2 1
      rfl (by decide),
    C6_graph_then_temporal.2.2.2.2 1 2 1 c6K [0] c6x1 c6x2 c6y1 c6y2 1 2 2 1
      rfl rfl (by decide) (by decide) 0 (by decide) (by decide) 0 (by decide)
      1 (by decide) 0 (by decide)⟩

attribute [local semireducible] Rat.add Rat.sub Rat.mul Rat.inv in
/-- C1: divergence between `DGNBlock.call` as implemented and the update the
specification describes.  Line 87/88 of the source permutes the inputs with
`perm=[0,3,2,1]`, which yields layout `(BatchSize, C, N, T)` although the
inline comment (and the claimed update rule) requires `(BatchSize, C, T, N)`;
the subsequent flat reshape therefore mixes the time and vertex axes.  On the
concrete input below (identity-acting dense, batch-norm and ReLU layers, zero
incidence matrices) the code produces the time/vertex-transposed vertex
features `[1, 3, 2, 4]` while the claimed channel-wise-concatenation update
produces `[1, 2, 3, 4]`. -/
theorem C1_divergence :
    (DGNBlock.call c1Block c1fv c1fe false 0).map (fun r => r.1.1) =
      some ⟨[1, 2, 2, 1], [1, 3, 2, 4]⟩ ∧
    (DGNBlock.specCall c1Block c1fv c1fe false 0).map (fun r => r.1.1) =
      some ⟨[1, 2, 2, 1], [1, 2, 3, 4]⟩ ∧
    (DGNBlock.call c1Block c1fv c1fe false 0).map (fun r => r.1.1) ≠
      (DGNBlock.specCall c1Block c1fv c1fe false 0).map (fun r => r.1.1) := by
  decide
